import Mathlib

/-!
Verification development for the baxend repository (a Python client layer
over a BaseX XML database).  The Python sources under src/ are shallowly
embedded below: pure fragments become Lean functions, raising code returns
an Except value, and recursion through nested sub-Tables is made structural
with an explicit fuel argument (all theorems below either hold for every
fuel value or are stated at a concrete, sufficient fuel).

Sections:
  1. the cross-process locking layer (src/locking.py):
     locked_ro / locked_rw decorators, MultiLock.wait / wait_for, MultiInt;
  2. the wire-protocol session (src/basex.py): md5 login handshake;
  3. the Database / Table expression algebra (src/database.py):
     operators, query compilation, slice detection, materialization;
  4. the claim theorems.
-/

namespace Baxend

/-! ## Section 1: locking layer (src/locking.py) -/

/-- Events observable on the per-resource lock primitives of an `Accessor`:
the write mutex, the reader condition variable and the reader counter, plus
the items an iterator-producing method yields to its consumer. -/
inductive LockEv where
  | acquireWrite
  | releaseWrite
  | acquireCond
  | releaseCond
  | incrReader
  | decrReader
  | notifyReaders
  | yieldItem (k : Nat)
  deriving DecidableEq, Repr

/-- Embeds the Python fact deciding the branch taken by `locked_ro` and
`locked_rw` (src/locking.py lines 25 and 78): `hasattr(old_method, "__next__")`
where `old_method` is the undecorated function object.  In Python a function
object — including a generator function such as `Table.__iter__` — has no
attribute `__next__`; only generator objects (the results of calling a
generator function) carry `__next__`.  Hence the test is False; compare
`locked` in src/basex.py line 44, which instead uses `isgeneratorfunction`. -/
def generatorFunctionHasNextAttr : Bool := false

/-- Trace of lock events produced by calling a `locked_ro`-decorated generator
method (such as `Table.__iter__`, `Table.keys`, `Table.get_tags`) and then
consuming the returned iterator to exhaustion, yielding `n` items.  Mirrors
`locked_ro` (src/locking.py lines 22-72): the generator branch would run the
body inside the try/finally via `yield from`; the plain branch calls
`old_method(...)`, which for a generator function merely creates the generator
object without running its body, so the `finally` block (decrement and notify)
runs before the caller consumes a single item. -/
def lockedRoGenTrace (n : Nat) : List LockEv :=
  if generatorFunctionHasNextAttr then
    [LockEv.acquireWrite, LockEv.acquireCond, LockEv.incrReader,
     LockEv.releaseCond, LockEv.releaseWrite]
      ++ (List.range n).map LockEv.yieldItem
      ++ [LockEv.acquireCond, LockEv.decrReader, LockEv.notifyReaders,
          LockEv.releaseCond]
  else
    [LockEv.acquireWrite, LockEv.acquireCond, LockEv.incrReader,
     LockEv.releaseCond, LockEv.releaseWrite,
     LockEv.acquireCond, LockEv.decrReader, LockEv.notifyReaders,
     LockEv.releaseCond]
      ++ (List.range n).map LockEv.yieldItem

/-- Trace of lock events produced by calling a `locked_rw`-decorated generator
method (such as `Table.set_tags` would be if it were a generator; the decorator
is also applied to `Accessor` iterator stubs) and consuming the iterator.
Mirrors `locked_rw` (src/locking.py lines 75-103): the plain branch is taken
(see `generatorFunctionHasNextAttr`), so the write mutex is released when the
wrapper returns the freshly created generator, before any item is yielded. -/
def lockedRwGenTrace (n : Nat) : List LockEv :=
  if generatorFunctionHasNextAttr then
    [LockEv.acquireWrite, LockEv.acquireCond, LockEv.releaseCond]
      ++ (List.range n).map LockEv.yieldItem
      ++ [LockEv.releaseWrite]
  else
    [LockEv.acquireWrite, LockEv.acquireCond, LockEv.releaseCond,
     LockEv.releaseWrite]
      ++ (List.range n).map LockEv.yieldItem

/-- Reader-counter value observed at each `yieldItem` event of a trace
(the counter starts at 0). -/
def readerCountsAtYields (evs : List LockEv) : List Int :=
  (evs.foldl
    (fun (acc : Int × List Int) e =>
      match e with
      | LockEv.incrReader => (acc.1 + 1, acc.2)
      | LockEv.decrReader => (acc.1 - 1, acc.2)
      | LockEv.yieldItem _ => (acc.1, acc.2 ++ [acc.1])
      | _ => acc)
    ((0 : Int), ([] : List Int))).2

/-- Write-mutex hold depth observed at each `yieldItem` event of a trace. -/
def writeHeldAtYields (evs : List LockEv) : List Int :=
  (evs.foldl
    (fun (acc : Int × List Int) e =>
      match e with
      | LockEv.acquireWrite => (acc.1 + 1, acc.2)
      | LockEv.releaseWrite => (acc.1 - 1, acc.2)
      | LockEv.yieldItem _ => (acc.1, acc.2 ++ [acc.1])
      | _ => acc)
    ((0 : Int), ([] : List Int))).2

/-- One Python `while` round of `MultiLock.wait` / `MultiLock.wait_for`
(src/locking.py lines 182-224), abstracted to whether some underlying
condition wait returned True in that round.  The state is `cur_time`; note the
source updates it with `cur_time = start_time` (line 193 resp. 215), never
with a fresh wall-clock reading.  `none` means the loop was still running
after the supplied rounds. -/
def multiLockWaitFinal (timeout : Option ℚ) (start c : ℚ) : Bool :=
  match timeout with
  | some tm => if tm ≤ c - start then false else true
  | none => true

/-- Loop body of `MultiLock.wait` / `wait_for` over the listed round results:
while `timeout == None or timeout > cur_time - start_time`, run a round; a
successful inner wait breaks out, otherwise `cur_time = start_time` and the
loop continues.  On exit the boolean result is computed by
`multiLockWaitFinal`. -/
def multiLockWaitGo (timeout : Option ℚ) (start : ℚ) : ℚ → List Bool → Option Bool
  | c, rounds =>
    if (match timeout with | none => true | some tm => decide (c - start < tm)) then
      match rounds with
      | [] => none
      | r :: rs =>
        if r then some (multiLockWaitFinal timeout start c)
        else multiLockWaitGo timeout start start rs
    else
      some (multiLockWaitFinal timeout start c)

/-- `MultiLock.wait` (src/locking.py lines 182-202): `start_time = time()`,
`cur_time = start_time`, then the retry loop. -/
def multiLockWait (timeout : Option ℚ) (start : ℚ) (rounds : List Bool) : Option Bool :=
  multiLockWaitGo timeout start start rounds

/-- `MultiLock.wait_for` (src/locking.py lines 204-224); identical control
flow to `MultiLock.wait` with `lock.wait_for(predicate, ...)` as the inner
wait, abstracted to the round results. -/
def multiLockWaitFor (timeout : Option ℚ) (start : ℚ) (rounds : List Bool) : Option Bool :=
  multiLockWaitGo timeout start start rounds

/-- Errors raised by the embedded Python code. -/
inductive PyErr where
  | typeError
  | valueError (msg : String)
  | indexError
  | keyError (msg : String)
  | runtimeError
  | assertionError
  | zeroDivisionError
  | fuelOut
  deriving DecidableEq, Repr

/-- `MultiInt.increment` (src/locking.py lines 231-233): the number of
underlying counters.  A `MultiInt` is represented by the list of current
values of its underlying shared integers. -/
def multiIntIncrement (m : List Int) : Nat := m.length

/-- `MultiInt.value` getter (src/locking.py lines 235-237): the sum of the
underlying values. -/
def multiIntValue (m : List Int) : Int := m.sum

/-- `MultiInt.value` setter (src/locking.py lines 239-247).  Python raises
ZeroDivisionError from `% 0` when there are no underlying integers, raises
ValueError when the delta is not a multiple of the counter count, and
otherwise adds `(value - sv) // si` (floor division) to every underlying
integer, with `sv` and `si` read once before the loop. -/
def multiIntSetValue (m : List Int) (v : Int) : Except PyErr (List Int) :=
  if m.length = 0 then
    Except.error PyErr.zeroDivisionError
  else if (v - m.sum).fmod (m.length : Int) ≠ 0 then
    Except.error (PyErr.valueError "Value not a multiply of increment")
  else
    Except.ok (m.map (fun x => x + (v - m.sum).fdiv (m.length : Int)))

/-! ## Section 3 prelude: module-level names of src/database.py -/

/-- The names bound at module level in src/database.py when it is imported as
a package module (so the `else` branch of each `if __name__ == "__main__"`
guard): the logging imports (line 5) and `log` (line 6), `__all__` (line 15),
the collection imports (lines 18-20), the package-relative imports
(lines 27-29), and the two classes (lines 32 and 161). -/
def databaseModuleGlobals : List String :=
  ["getLogger", "basicConfig", "DEBUG", "INFO", "WARNING", "ERROR", "log",
   "__all__", "defaultdict", "chain", "Enum",
   "BaseXSession", "BaseXQueryError",
   "locked_ro", "locked_rw", "MultiLock", "Driver", "Accessor",
   "XMLType", "XMLText", "XMLAttribute",
   "Database", "Table"]

/-- The Python builtin exception names that could make an `except E:` clause
resolve when `E` is absent from the module globals.  `BaseXCommandError` is a
class defined in src/basex.py, not a builtin, so it does not appear here. -/
def pythonBuiltinExceptionNames : List String :=
  ["BaseException", "Exception", "ArithmeticError", "AssertionError",
   "AttributeError", "EOFError", "ImportError", "IndexError", "KeyError",
   "KeyboardInterrupt", "LookupError", "MemoryError", "NameError",
   "NotImplementedError", "OSError", "OverflowError", "RecursionError",
   "ReferenceError", "RuntimeError", "StopIteration", "StopAsyncIteration",
   "SyntaxError", "SystemError", "SystemExit", "TypeError",
   "UnboundLocalError", "UnicodeError", "ValueError", "ZeroDivisionError"]

/-- Python name resolution as seen from an `except` clause in the body of
src/database.py: module globals first, then builtins. -/
def databaseModuleResolves (n : String) : Bool :=
  databaseModuleGlobals.contains n || pythonBuiltinExceptionNames.contains n

/-- Outcome of a dictionary-style document access on `Database`. -/
inductive DbItemOutcome where
  | ok (result : String)
  | keyErr (path : String)
  | nameErr (missing : String)
  deriving DecidableEq, Repr

/-- `Database.__getitem__` (src/database.py lines 100-104): `GET path` on the
server; on a command failure the `except BaseXCommandError:` clause is
evaluated, which requires resolving the name `BaseXCommandError`; if the name
does not resolve, Python raises NameError instead of entering the handler
that would raise `KeyError(path)`. -/
def databaseGetItem (path : String) (server : Except String String) : DbItemOutcome :=
  match server with
  | Except.ok r => DbItemOutcome.ok r
  | Except.error _ =>
    if databaseModuleResolves "BaseXCommandError" then DbItemOutcome.keyErr path
    else DbItemOutcome.nameErr "BaseXCommandError"

/-- `Database.__delitem__` (src/database.py lines 109-113): `DELETE path`,
with the same `except BaseXCommandError:` clause as `Database.__getitem__`. -/
def databaseDelItem (path : String) (server : Except String Unit) : DbItemOutcome :=
  match server with
  | Except.ok _ => DbItemOutcome.ok ""
  | Except.error _ =>
    if databaseModuleResolves "BaseXCommandError" then DbItemOutcome.keyErr path
    else DbItemOutcome.nameErr "BaseXCommandError"

/-! ## Section 2: wire-protocol session (src/basex.py) -/

/-- UTF-8 encoding of one code point (the reference byte layout used by
`str.encode("utf-8")`). -/
def utf8EncodeCp (c : Nat) : List Nat :=
  if c < 0x80 then [c]
  else if c < 0x800 then
    [0xC0 ||| (c >>> 6), 0x80 ||| (c &&& 0x3F)]
  else if c < 0x10000 then
    [0xE0 ||| (c >>> 12), 0x80 ||| ((c >>> 6) &&& 0x3F), 0x80 ||| (c &&& 0x3F)]
  else
    [0xF0 ||| (c >>> 18), 0x80 ||| ((c >>> 12) &&& 0x3F),
     0x80 ||| ((c >>> 6) &&& 0x3F), 0x80 ||| (c &&& 0x3F)]

/-- UTF-8 bytes of a string, as `s.encode("utf-8")` produces them. -/
def utf8Bytes (s : String) : List Nat :=
  s.data.flatMap (fun c => utf8EncodeCp c.toNat)

/-- `Session.send_str` (src/basex.py lines 255-258): buffer the UTF-8 bytes of
the string followed by the single zero terminator byte. -/
def sendStrBytes (s : String) : List Nat := utf8Bytes s ++ [0]

/-- `str.split(sep)` for a one-character separator, on a list of characters:
`"a:b:c".split(":") == ["a", "b", "c"]` and `"".split(":") == [""]`. -/
def pySplitChar (sep : Char) : List Char → List (List Char)
  | [] => [[]]
  | c :: cs =>
    if c = sep then [] :: pySplitChar sep cs
    else
      match pySplitChar sep cs with
      | h :: t => (c :: h) :: t
      | [] => [[c]]

/-- `s.split(":")` on a Lean string. -/
def pySplitColon (s : String) : List String :=
  (pySplitChar ':' s.data).map (fun l => String.mk l)

/-- The errors `Session.login` can raise. -/
inductive LoginErr where
  | authError
  | protocolError
  | valueErr
  deriving DecidableEq, Repr

/-- `Session.md5` composed as the login digest (src/basex.py line 225):
`md5(md5(":".join([user, realm, password])) + nonce)`, with the hex digest
function abstracted as `md5f`. -/
def loginDigest (md5f : String → String) (user realm password nonce : String) : String :=
  md5f (md5f (user ++ ":" ++ realm ++ ":" ++ password) ++ nonce)

/-- `Session.login` (src/basex.py lines 216-237).  Input: the zero-terminated
string received from the server (already stripped of its terminator by
`recv_str`), the status byte that follows the reply, and whether the protocol
buffers are empty after the exchange.  Output: the bytes the client buffers
and flushes, and the outcome.  The `realm, nonce = ...split(":")` unpacking
raises ValueError when the split does not give exactly two parts (the
`except TypeError` clause in the source can never fire, since `str.split`
returns a list of strings); the ValueError propagates before anything is
sent. -/
def sessionLogin (md5f : String → String) (user password : String)
    (realmNonce : String) (status : Nat) (buffersEmptyAfter : Bool) :
    List Nat × Except LoginErr Unit :=
  match pySplitColon realmNonce with
  | [realm, nonce] =>
    let wire := sendStrBytes user ++ sendStrBytes (loginDigest md5f user realm password nonce)
    if !buffersEmptyAfter then (wire, Except.error LoginErr.protocolError)
    else if status = 0 then (wire, Except.ok ())
    else if status = 1 then (wire, Except.error LoginErr.authError)
    else (wire, Except.error LoginErr.protocolError)
  | _ => ([], Except.error LoginErr.valueErr)

/-! ## Section 3: Database / Table expression algebra (src/database.py)

A `Table` carries a database name (standing for the `database` reference,
identified by its `database_name`), a document (a single name or a frozenset
of names), the expression chain, the selector chain, the bound variables
(an insertion-ordered name-to-value dict), and the two namespace dicts.
Key values and bound values are Python scalars; for key positions a value is
either a scalar or a `slice` object with optional bounds. -/

/-- A Python scalar value as used for keys and bound variables. -/
inductive PyVal where
  | vBool (b : Bool)
  | vInt (n : Int)
  | vStr (s : String)
  | vXml (rendered : String)
  deriving DecidableEq, Repr

/-- A value at one key position of a selector: a scalar, or a `slice` with
optional `start` / `stop` (half-open range). -/
inductive KeyVal where
  | scalar (v : PyVal)
  | slice (lo hi : Option PyVal)
  deriving DecidableEq, Repr

/-- One selector of the selector chain: `Ellipsis`, or the tuple of key
values produced by subscripting. -/
inductive Selector where
  | ellipsis
  | vals (vs : List KeyVal)
  deriving DecidableEq, Repr

/-- The `document` field: a single document name, or a frozenset of names
(kept as a deduplicated sorted list, the canonical form of a frozenset of
strings). -/
inductive PyDoc where
  | single (name : String)
  | docset (names : List String)
  deriving DecidableEq, Repr

mutual

/-- `Table` (src/database.py lines 161-171): database name, document,
expression chain, selector chain, bound variables, xmlns, xml_pfx. -/
inductive Table where
  | mk : String → PyDoc → List Step → List Selector →
      List (String × PyVal) → List (String × String) → List (String × String) → Table

/-- One step of the expression chain: `(path-parts, keys-spec?, filter-list?)`.
A keys-spec entry of `none` is the Python `None` meaning a positional key. -/
inductive Step where
  | mk : List PathPart → Option (List (Option String)) → Option (List String) → Step

/-- One element of the path-parts tuple: a path segment string, or a
sub-Table (in a Cartesian product root). -/
inductive PathPart where
  | seg : String → PathPart
  | sub : Table → PathPart

end

def Table.databaseName : Table → String
  | Table.mk db _ _ _ _ _ _ => db

def Table.document : Table → PyDoc
  | Table.mk _ d _ _ _ _ _ => d

def Table.expressionChain : Table → List Step
  | Table.mk _ _ ec _ _ _ _ => ec

def Table.selectorChain : Table → List Selector
  | Table.mk _ _ _ sc _ _ _ => sc

def Table.boundVars : Table → List (String × PyVal)
  | Table.mk _ _ _ _ bv _ _ => bv

def Table.xmlns : Table → List (String × String)
  | Table.mk _ _ _ _ _ ns _ => ns

def Table.xmlPfx : Table → List (String × String)
  | Table.mk _ _ _ _ _ _ pfx => pfx

def Step.pathParts : Step → List PathPart
  | Step.mk ps _ _ => ps

def Step.keys : Step → Option (List (Option String))
  | Step.mk _ ks _ => ks

def Step.filters : Step → Option (List String)
  | Step.mk _ _ fs => fs

/-- `Database.doc` (src/database.py lines 115-124): a fresh Table rooted at
one document, with empty chains and bound variables. -/
def databaseDoc (databaseName docName : String)
    (xmlns xmlPfx : List (String × String)) : Table :=
  Table.mk databaseName (PyDoc.single docName) [] [] [] xmlns xmlPfx

/-- `Table.__truediv__` (src/database.py lines 173-180): extend the path by
one element.  A new step is opened when the chain is empty or the last step
already has a keys-spec; otherwise the segment is appended to the last step
and that step is rebuilt as `(parts + (seg,), None, None)`. -/
def Table.truediv (t : Table) (pathElement : String) : Table :=
  let ec := t.expressionChain
  let ec' :=
    match ec.getLast? with
    | none => ec ++ [Step.mk [PathPart.seg pathElement] none none]
    | some last =>
      match last.keys with
      | some _ => ec ++ [Step.mk [PathPart.seg pathElement] none none]
      | none =>
        ec.dropLast ++ [Step.mk (last.pathParts ++ [PathPart.seg pathElement]) none none]
  Table.mk t.databaseName t.document ec' t.selectorChain t.boundVars t.xmlns t.xmlPfx

/-- `Table.__matmul__` (src/database.py lines 182-191): attach a keys-spec to
the last step.  Raises ValueError when the chain is empty or the last step
already has keys; an empty spec becomes `[None]` (positional). -/
def Table.matmul (t : Table) (keysSpec : List (Option String)) : Except PyErr Table :=
  let ec := t.expressionChain
  match ec.getLast? with
  | none => Except.error (PyErr.valueError "Provide a path element before specifying keys.")
  | some last =>
    match last.keys with
    | some _ => Except.error (PyErr.valueError "Provide a path element before specifying keys.")
    | none =>
      let ks := if keysSpec.isEmpty then [none] else keysSpec
      Except.ok (Table.mk t.databaseName t.document
        (ec.dropLast ++ [Step.mk last.pathParts (some ks) last.filters])
        t.selectorChain t.boundVars t.xmlns t.xmlPfx)

/-- `Table.__mod__` (src/database.py lines 198-207): apply a filter on the
last step.  Raises ValueError when the chain is empty or the last step
already has keys; otherwise the predicate starts or extends the filter
list. -/
def Table.mod (t : Table) (filterSpec : String) : Except PyErr Table :=
  let ec := t.expressionChain
  match ec.getLast? with
  | none => Except.error (PyErr.valueError "Provide path element first.")
  | some last =>
    match last.keys with
    | some _ => Except.error (PyErr.valueError "Provide path element first.")
    | none =>
      match last.filters with
      | none =>
        Except.ok (Table.mk t.databaseName t.document
          (ec.dropLast ++ [Step.mk last.pathParts last.keys (some [filterSpec])])
          t.selectorChain t.boundVars t.xmlns t.xmlPfx)
      | some fs =>
        Except.ok (Table.mk t.databaseName t.document
          (ec.dropLast ++ [Step.mk last.pathParts last.keys (some (fs ++ [filterSpec]))])
          t.selectorChain t.boundVars t.xmlns t.xmlPfx)

/-- Python dict update: existing keys keep their position and take the new
value, new keys are appended in order. -/
def dictUpdate (d u : List (String × PyVal)) : List (String × PyVal) :=
  d.map (fun p =>
    match u.find? (fun q => q.1 = p.1) with
    | some q => (p.1, q.2)
    | none => p)
  ++ u.filter (fun q => d.all (fun p => p.1 ≠ q.1))

/-- `Table.__floordiv__` (src/database.py lines 193-196): merge additional
bound variables. -/
def Table.floordiv (t : Table) (values : List (String × PyVal)) : Table :=
  Table.mk t.databaseName t.document t.expressionChain t.selectorChain
    (dictUpdate t.boundVars values) t.xmlns t.xmlPfx

/-- The argument of `Table.__getitem__` before normalization: `Ellipsis`, a
single (non-tuple) value, or a tuple of values. -/
inductive SubscriptArg where
  | ell
  | one (v : KeyVal)
  | tup (vs : List KeyVal)
  deriving DecidableEq, Repr

/-- `Table.__getitem__` (src/database.py lines 422-435): normalize the
subscript, raise TypeError when `len(selector_chain) > len(expression_chain)`,
otherwise append one selector. -/
def Table.getitem (t : Table) (kv : SubscriptArg) : Except PyErr Table :=
  let sel : Selector :=
    match kv with
    | SubscriptArg.ell => Selector.ellipsis
    | SubscriptArg.one v => Selector.vals [v]
    | SubscriptArg.tup vs => Selector.vals vs
  if t.selectorChain.length > t.expressionChain.length then
    Except.error PyErr.typeError
  else
    Except.ok (Table.mk t.databaseName t.document t.expressionChain
      (t.selectorChain ++ [sel]) t.boundVars t.xmlns t.xmlPfx)

/-- Whether every path part is a sub-Table (`all(isinstance(_subpath, Table)
for _subpath in path)`; True on an empty tuple). -/
def allSubs (ps : List PathPart) : Bool :=
  ps.all (fun p => match p with | PathPart.sub _ => true | PathPart.seg _ => false)

/-- The sub-Tables of a path-parts list. -/
def subsOf (ps : List PathPart) : List Table :=
  ps.filterMap (fun p => match p with | PathPart.sub u => some u | PathPart.seg _ => none)

/-- Canonical form of a frozenset of strings: deduplicate, then sort. -/
def canonSet (l : List String) : List String :=
  l.dedup.mergeSort (fun a b => decide (a ≤ b))

/-- The frozenset union of the four `isinstance(..., frozenset)` cases of
`Table.__mul__` (src/database.py lines 230-237). -/
def unionDocs : PyDoc → PyDoc → PyDoc
  | PyDoc.single a, PyDoc.single b => PyDoc.docset (canonSet [a, b])
  | PyDoc.single a, PyDoc.docset bs => PyDoc.docset (canonSet ([a] ++ bs))
  | PyDoc.docset as, PyDoc.single b => PyDoc.docset (canonSet (as ++ [b]))
  | PyDoc.docset as, PyDoc.docset bs => PyDoc.docset (canonSet (as ++ bs))

/-- Whether a Table is already a product (src/database.py lines 215-216):
its chain is non-empty, the last step has no keys and no filters, and all its
path parts are sub-Tables. -/
def Table.isProduct (t : Table) : Bool :=
  match t.expressionChain.getLast? with
  | none => false
  | some last => last.keys.isNone && last.filters.isNone && allSubs last.pathParts

/-- The path parts of the last step of a product Table
(`t.expression_chain[-1][0]`). -/
def Table.lastParts (t : Table) : List PathPart :=
  (t.expressionChain.getLast?.map Step.pathParts).getD []

/-- `Table.__mul__` (src/database.py lines 209-242): the Cartesian product.
The `self.database is not other.database` identity check is modeled by
comparing database names.  Non-product operands are specialized with
`[...]` (`__getitem__`, which may raise, the left operand first) before
being embedded as sub-Tables; at most ten operands are allowed; documents
union into a frozenset; bound variables merge; the selector chain of the
product is empty. -/
def Table.mul (t other : Table) : Except PyErr Table :=
  if t.databaseName ≠ other.databaseName then Except.error (PyErr.valueError "")
  else
    let partsE : Except PyErr (List PathPart) :=
      match t.isProduct, other.isProduct with
      | false, false =>
        match t.getitem SubscriptArg.ell with
        | Except.error e => Except.error e
        | Except.ok a =>
          match other.getitem SubscriptArg.ell with
          | Except.error e => Except.error e
          | Except.ok b => Except.ok [PathPart.sub a, PathPart.sub b]
      | true, false =>
        match other.getitem SubscriptArg.ell with
        | Except.error e => Except.error e
        | Except.ok b => Except.ok (t.lastParts ++ [PathPart.sub b])
      | false, true =>
        match t.getitem SubscriptArg.ell with
        | Except.error e => Except.error e
        | Except.ok a => Except.ok ([PathPart.sub a] ++ other.lastParts)
      | true, true => Except.ok (t.lastParts ++ other.lastParts)
    partsE.bind (fun parts =>
      if parts.length > 10 then
        Except.error (PyErr.valueError "Only up to 10-fold cartesian products are supported.")
      else
        Except.ok (Table.mk t.databaseName (unionDocs t.document other.document)
          [Step.mk parts none none] []
          (dictUpdate t.boundVars other.boundVars) t.xmlns t.xmlPfx))

/-- The Tables reachable by operator application, starting from
`Database.doc`. -/
inductive Reachable : Table → Prop where
  | doc : ∀ db docName xmlns xmlPfx, Reachable (databaseDoc db docName xmlns xmlPfx)
  | truediv : ∀ t s, Reachable t → Reachable (t.truediv s)
  | matmul : ∀ t ks t', Reachable t → t.matmul ks = Except.ok t' → Reachable t'
  | floordiv : ∀ t vs, Reachable t → Reachable (t.floordiv vs)
  | mod : ∀ t f t', Reachable t → t.mod f = Except.ok t' → Reachable t'
  | mul : ∀ t u t', Reachable t → Reachable u → t.mul u = Except.ok t' → Reachable t'
  | getitem : ∀ t kv t', Reachable t → t.getitem kv = Except.ok t' → Reachable t'

/-! ### Query compilation (src/database.py lines 244-379)

Recursion into the sub-Tables of a product root is made structural with an
explicit fuel argument; every recursive entry point spends one unit, and a
spent-out recursion reports `PyErr.fuelOut`.  All claim theorems below hold
for every fuel value, or are evaluated at a concrete, sufficient fuel. -/

/-- `Table.__numerals` (src/database.py line 276) indexed, raising IndexError
past the end as Python indexing does. -/
def pyNumeral (k : Nat) : Except PyErr String :=
  match ["one", "two", "three", "four", "five", "six", "seven", "eight", "nine", "ten"].get? k with
  | some s => Except.ok s
  | none => Except.error PyErr.indexError

/-- `Table.__digits` (src/database.py line 277) indexed: the characters of
the string `1234567890`. -/
def pyDigit (k : Nat) : Except PyErr String :=
  match ["1", "2", "3", "4", "5", "6", "7", "8", "9", "0"].get? k with
  | some s => Except.ok s
  | none => Except.error PyErr.indexError

/-- The external-variable name `$key{level}_{m}_{n}`. -/
def keyVarName (level : String) (m n : Nat) : String :=
  "$key" ++ level ++ "_" ++ toString m ++ "_" ++ toString n

/-- One entry of the keyspec list for the pair `(key, val)` at index `n`
(src/database.py lines 286-302): an equality or bare variable for a scalar,
and the present bounds for a slice, keyed or positional. -/
def keySpecItem (level : String) (m n : Nat) : Option String × KeyVal → List String
  | (key?, KeyVal.scalar _) =>
    match key? with
    | some k => [k ++ "=" ++ keyVarName level m n]
    | none => [keyVarName level m n]
  | (key?, KeyVal.slice lo hi) =>
    match key? with
    | some k =>
      (if lo.isSome then [k ++ ">=" ++ keyVarName level m n ++ "_low"] else [])
        ++ (if hi.isSome then [k ++ "<" ++ keyVarName level m n ++ "_high"] else [])
    | none =>
      (if lo.isSome then ["position()>=" ++ keyVarName level m n ++ "_low"] else [])
        ++ (if hi.isSome then ["position()<" ++ keyVarName level m n ++ "_high"] else [])

/-- The keyspec entries of step `m`: `enumerate(zip(keys, vals))` mapped
through `keySpecItem`. -/
def keySpecs (level : String) (m : Nat) (ks : List (Option String)) (vs : List KeyVal) :
    List String :=
  (ks.zip vs).enum.flatMap (fun nkv => keySpecItem level m nkv.1 nkv.2)

/-- The path segments of a path-parts list; `none` when some part is a
sub-Table, in which case `"/".join(path)` raises TypeError. -/
def partsAsSegs (ps : List PathPart) : Option (List String) :=
  ps.mapM (fun p => match p with | PathPart.seg s => some s | PathPart.sub _ => none)

/-- `" " * l`. -/
def spaces (l : Nat) : String := String.join (List.replicate l " ")

/-- Rendering of the `document` field inside `doc("{database_name}/{document}")`
(src/database.py line 280): a single name renders as itself; a frozenset
renders through its canonical sorted form. -/
def pyDocRender : PyDoc → String
  | PyDoc.single s => s
  | PyDoc.docset l => "frozenset(" ++ String.intercalate ", " l ++ ")"

/-- The `for $one in $one1, ...` lines of a product root (src/database.py
lines 320-321). -/
def productForLines (level : String) (count : Nat) : Except PyErr (List String) :=
  (List.range count).mapM (fun k => do
    let nu ← pyNumeral k
    pure ((if k = 0 then "let $this :=\nfor" else "   ")
      ++ " $" ++ nu ++ " in $" ++ nu ++ level
      ++ (if k ≠ count - 1 then "," else "") ++ "\n"))

/-- The `{$one}{$two}...` body of the emitted `<tuple>` element
(src/database.py line 326). -/
def tupleBody (count : Nat) : Except PyErr String := do
  let pieces ← (List.range count).mapM (fun k => do
    let nu ← pyNumeral k
    pure ("\x7b$" ++ nu ++ "\x7d"))
  pure (String.join pieces)

mutual

/-- `Table.__query_expr` (src/database.py lines 279-346) with the fields of
`self` passed explicitly: builds the current expression `p`, the FLWOR
prefix `s` and the indentation level `l` by folding the zipped expression
and selector chains, then applies the modifier and assembles the result. -/
def queryExprCore (fuel : Nat) (db : String) (document : PyDoc) (ec : List Step)
    (sc : List Selector) (modifier : Option (String → String)) (level : String) :
    Except PyErr String :=
  match fuel with
  | 0 => Except.error PyErr.fuelOut
  | fuel' + 1 => do
    let p0 := "doc(\"" ++ db ++ "/" ++ pyDocRender document ++ "\")"
    let (p, s, l) ← queryExprPairs fuel' level 0 (ec.zip sc) p0 "" 0
    let p1 := match modifier with | some f => f p | none => p
    if s ≠ "" then pure (s ++ spaces l ++ "return " ++ p1) else pure p1

/-- The body of the `for m, ((path, keys, filter_), vals) in
enumerate(zip(...))` loop of `Table.__query_expr`, carried out over the
remaining pairs with the running state `(p, s, l)`. -/
def queryExprPairs (fuel : Nat) (level : String) (m : Nat)
    (pairs : List (Step × Selector)) (p s : String) (l : Nat) :
    Except PyErr (String × String × Nat) :=
  match fuel with
  | 0 => Except.error PyErr.fuelOut
  | fuel' + 1 =>
    match pairs with
    | [] => Except.ok (p, s, l)
    | (st, sel) :: rest => do
      let keyspec : String ←
        match sel with
        | Selector.vals vs =>
          match st.keys with
          | none => Except.error PyErr.typeError
          | some ks =>
            pure ("[" ++ String.intercalate " and " (keySpecs level m ks vs) ++ "]")
        | Selector.ellipsis => pure ""
      let filterStr : String :=
        match st.filters with
        | none => ""
        | some fs => String.intercalate " and " (fs.map (fun f => "(" ++ f ++ ")"))
      if allSubs st.pathParts then do
        if m ≠ 0 then throw PyErr.assertionError
        if st.pathParts.length > 10 then throw PyErr.assertionError
        let subs := subsOf st.pathParts
        let letLines ← queryExprSubs fuel' level 0 subs
        let forLines ← productForLines level subs.length
        let ts ← tupleBody subs.length
        let sp := letLines ++ forLines
          ++ (if filterStr ≠ "" then [" where " ++ filterStr ++ "\n"] else [])
          ++ [" return <tuple xmlns=\"https://github.com/haael/baxend\">" ++ ts ++ "</tuple>\n"]
        queryExprPairs fuel' level (m + 1) rest ("$this" ++ keyspec) (String.join sp) l
      else
        match partsAsSegs st.pathParts with
        | none => Except.error PyErr.typeError
        | some segs =>
          let pathStr := String.intercalate "/" segs
          if filterStr = "" then
            queryExprPairs fuel' level (m + 1) rest (p ++ "/" ++ pathStr ++ keyspec) s l
          else
            queryExprPairs fuel' level (m + 1) rest ("$this" ++ keyspec)
              (s ++ spaces l ++ "for $this in " ++ p ++ "/" ++ pathStr ++ "\n"
                ++ spaces l ++ " where " ++ filterStr ++ "\n")
              (l + 1)

/-- The `let $one{level} := ...` lines of a product root: one recursive
sub-plan per sub-Table (src/database.py lines 316-318). -/
def queryExprSubs (fuel : Nat) (level : String) (k : Nat) (subs : List Table) :
    Except PyErr (List String) :=
  match fuel with
  | 0 => Except.error PyErr.fuelOut
  | fuel' + 1 =>
    match subs with
    | [] => Except.ok []
    | u :: rest => do
      let d ← pyDigit k
      let nu ← pyNumeral k
      let subExpr ← queryExprCore fuel' u.databaseName u.document u.expressionChain
        u.selectorChain none (d ++ level)
      let others ← queryExprSubs fuel' level (k + 1) rest
      pure (("let $" ++ nu ++ level ++ " :=\n" ++ subExpr ++ "\n") :: others)

end

/-- The external declarations contributed by one key value of selector `m`
at position `n` (src/database.py lines 255-262). -/
def varDeclItem (level : String) (m n : Nat) : KeyVal → List String
  | KeyVal.scalar _ => ["declare variable " ++ keyVarName level m n ++ " external;"]
  | KeyVal.slice lo hi =>
    (if lo.isSome then ["declare variable " ++ keyVarName level m n ++ "_low external;"] else [])
      ++ (if hi.isSome then ["declare variable " ++ keyVarName level m n ++ "_high external;"] else [])

mutual

/-- `Table.__var_decls` (src/database.py lines 251-266) with the fields of
`self` passed explicitly: external declarations for every non-Ellipsis
selector, then recursion into the sub-Tables of a product root. -/
def varDeclsCore (fuel : Nat) (sc : List Selector) (ec : List Step) (level : String) :
    Except PyErr (List String) :=
  match fuel with
  | 0 => Except.error PyErr.fuelOut
  | fuel' + 1 => do
    let own := sc.enum.flatMap (fun msel =>
      match msel.2 with
      | Selector.ellipsis => []
      | Selector.vals vs => vs.enum.flatMap (fun nv => varDeclItem level msel.1 nv.1 nv.2))
    match ec.head? with
    | some st0 =>
      if allSubs st0.pathParts then do
        let subLines ← varDeclsSubs fuel' level 0 (subsOf st0.pathParts)
        pure (own ++ subLines)
      else pure own
    | none => pure own

/-- The recursive part of `Table.__var_decls` over the sub-Tables of the
first step. -/
def varDeclsSubs (fuel : Nat) (level : String) (k : Nat) (subs : List Table) :
    Except PyErr (List String) :=
  match fuel with
  | 0 => Except.error PyErr.fuelOut
  | fuel' + 1 =>
    match subs with
    | [] => Except.ok []
    | u :: rest => do
      let d ← pyDigit k
      let lines ← varDeclsCore fuel' u.selectorChain u.expressionChain (d ++ level)
      let others ← varDeclsSubs fuel' level (k + 1) rest
      pure (lines ++ others)

end

/-- The loop of `Table.__is_slice` over `zip(expression_chain,
selector_chain)` (src/database.py lines 405-413): an Ellipsis selector makes
the Table a slice; a tuple selector is scanned for slice values against the
zipped keys (raising TypeError when the step has no keys, as
`zip(None, vals)` does). -/
def isSlicePairs : List (Step × Selector) → Except PyErr Bool
  | [] => Except.ok false
  | (st, sel) :: rest =>
    match sel with
    | Selector.ellipsis => Except.ok true
    | Selector.vals vs =>
      match st.keys with
      | none => Except.error PyErr.typeError
      | some ks =>
        if (ks.zip vs).any (fun kv =>
            match kv.2 with | KeyVal.slice _ _ => true | KeyVal.scalar _ => false) then
          Except.ok true
        else isSlicePairs rest

mutual

/-- `Table.__is_slice` (src/database.py lines 404-420) with the fields of
`self` passed explicitly: the zipped-chain scan, then recursion into the
sub-Tables of a product root. -/
def isSliceCore (fuel : Nat) (ec : List Step) (sc : List Selector) : Except PyErr Bool :=
  match fuel with
  | 0 => Except.error PyErr.fuelOut
  | fuel' + 1 => do
    let own ← isSlicePairs (ec.zip sc)
    if own then pure true
    else
      match ec.head? with
      | some st0 =>
        if allSubs st0.pathParts then isSliceSubs fuel' (subsOf st0.pathParts)
        else pure false
      | none => pure false

/-- The recursive part of `Table.__is_slice` over the sub-Tables of the
first step. -/
def isSliceSubs (fuel : Nat) (subs : List Table) : Except PyErr Bool :=
  match fuel with
  | 0 => Except.error PyErr.fuelOut
  | fuel' + 1 =>
    match subs with
    | [] => Except.ok false
    | u :: rest => do
      let b ← isSliceCore fuel' u.expressionChain u.selectorChain
      if b then pure true else isSliceSubs fuel' rest

end

/-- `Table.__is_slice` on a Table value. -/
def Table.isSlice (fuel : Nat) (t : Table) : Except PyErr Bool :=
  isSliceCore fuel t.expressionChain t.selectorChain

/-- Whether one selector is `Ellipsis` or contains a range value. -/
def selHasSlice : Selector → Bool
  | Selector.ellipsis => true
  | Selector.vals vs =>
    vs.any (fun v => match v with | KeyVal.slice _ _ => true | KeyVal.scalar _ => false)

mutual

/-- The spec wording of slice-shapedness: a Table is slice-shaped iff any
selector is `Ellipsis` or contains any range, where the selectors of the
sub-Tables of a product root count as well.  `none` when the fuel runs
out. -/
def sliceSpecCore (fuel : Nat) (ec : List Step) (sc : List Selector) : Option Bool :=
  match fuel with
  | 0 => none
  | fuel' + 1 =>
    if sc.any selHasSlice then some true
    else
      match ec.head? with
      | some st0 =>
        if allSubs st0.pathParts then sliceSpecSubs fuel' (subsOf st0.pathParts)
        else some false
      | none => some false

/-- The recursive part of `sliceSpecCore` over the sub-Tables of a product
root. -/
def sliceSpecSubs (fuel : Nat) (subs : List Table) : Option Bool :=
  match fuel with
  | 0 => none
  | fuel' + 1 =>
    match subs with
    | [] => some false
    | u :: rest =>
      match sliceSpecCore fuel' u.expressionChain u.selectorChain with
      | none => none
      | some true => some true
      | some false => sliceSpecSubs fuel' rest

end

mutual

/-- Well-formedness of a pair of chains as §3 of the specification assumes:
at most one selector per step, every tuple selector zipped against a present
keys-spec at least as long as the tuple, and the same recursively for the
sub-Tables of a product root. -/
def wfChains (fuel : Nat) (ec : List Step) (sc : List Selector) : Bool :=
  match fuel with
  | 0 => false
  | fuel' + 1 =>
    decide (sc.length ≤ ec.length)
    && (ec.zip sc).all (fun pair =>
        match pair.2 with
        | Selector.ellipsis => true
        | Selector.vals vs =>
          match pair.1.keys with
          | none => false
          | some ks => decide (vs.length ≤ ks.length))
    && (match ec.head? with
        | some st0 => !allSubs st0.pathParts || wfSubs fuel' (subsOf st0.pathParts)
        | none => true)

/-- The recursive part of `wfChains` over the sub-Tables of a product
root. -/
def wfSubs (fuel : Nat) (subs : List Table) : Bool :=
  match fuel with
  | 0 => false
  | fuel' + 1 =>
    match subs with
    | [] => true
    | u :: rest =>
      wfChains fuel' u.expressionChain u.selectorChain && wfSubs fuel' rest

end

/-- `Table.__xmlns_decls` (src/database.py lines 244-249). -/
def xmlnsDecls (ns : List (String × String)) : List String :=
  ns.map (fun pu =>
    if pu.1 = "" then "declare default element namespace \"" ++ pu.2 ++ "\";"
    else "declare namespace " ++ pu.1 ++ " = \"" ++ pu.2 ++ "\";")

/-- `Table.__bound_var_decls` (src/database.py lines 268-270): one external
declaration per bound-variable name. -/
def boundVarDecls (names : List String) : List String :=
  names.map (fun v => "declare variable $" ++ v ++ " external;")

/-- Python list indexing with negative wrap-around, raising IndexError out of
range. -/
def pyIndex {α : Type} (l : List α) (i : Int) : Except PyErr α :=
  let j : Int := if i < 0 then (l.length : Int) + i else i
  if j < 0 then Except.error PyErr.indexError
  else
    match l.get? j.toNat with
    | some a => Except.ok a
    | none => Except.error PyErr.indexError

/-- The query modes of `Table._Table__Mode` (src/database.py line 348). -/
inductive Mode where
  | get
  | count
  | insert
  | delete
  | keys
  | getattr
  | setattr
  deriving DecidableEq, Repr

/-- `Table.__query_string` (src/database.py lines 350-379) without the
per-Table memoization (the cache stores exactly the value computed here):
select the mode modifier, then join the namespace declarations, the key
variable declarations, the bound-variable declarations, the `$inserted`
declaration for the updating modes, and the compiled query expression. -/
def Table.queryString (fuel : Nat) (t : Table) (mode : Mode) : Except PyErr String := do
  let modifier : Option (String → String) ←
    match mode with
    | Mode.get => pure none
    | Mode.getattr => pure (some (fun p =>
        "( let $element := " ++ p
          ++ " return if(empty($element)) then () else element \x7bfn:node-name($element)\x7d \x7b$element/@*\x7d )"))
    | Mode.setattr => pure (some (fun p =>
        "( let $element := " ++ p
          ++ " return if(empty($element)) then () else replace node $element with element \x7bfn:node-name($inserted)\x7d \x7b $inserted/@*, $element/* \x7d )"))
    | Mode.count => pure (some (fun p => "count(" ++ p ++ ")"))
    | Mode.keys => do
      let st ← pyIndex t.expressionChain ((t.selectorChain.length : Int) - 1)
      match st.keys with
      | none => throw PyErr.typeError
      | some ks => do
        let strs ← ks.mapM (fun k =>
          match k with
          | some s => pure s
          | none => throw PyErr.typeError)
        pure (some (fun p => p ++ "/(" ++ String.intercalate ", " strs ++ ")"))
    | Mode.delete => pure (some (fun p => p ++ "/(delete node ., update:output(\"deleted\"))"))
    | Mode.insert => do
      let st ← pyIndex t.expressionChain (t.selectorChain.length : Int)
      match partsAsSegs st.pathParts.dropLast with
      | none => throw PyErr.typeError
      | some segs =>
        let stem0 := String.intercalate "/" segs
        let stem := if stem0 ≠ "" then "/" ++ stem0 else stem0
        pure (some (fun p => "insert node $inserted into " ++ p ++ stem))
  let declsNs := xmlnsDecls t.xmlns
  let declsVars ← varDeclsCore fuel t.selectorChain t.expressionChain ""
  let declsBound := boundVarDecls (t.boundVars.map Prod.fst)
  let declsIns :=
    if mode = Mode.insert ∨ mode = Mode.setattr then ["declare variable $inserted external;"]
    else []
  let body ← queryExprCore fuel t.databaseName t.document t.expressionChain
    t.selectorChain modifier ""
  pure (String.intercalate "\n" (declsNs ++ declsVars ++ declsBound ++ declsIns ++ [body]))

/-- `Table.__str__` (src/database.py lines 437-446), given the string the
server returns for the compiled GET query: when the result is falsy (empty)
the code evaluates `self.__is_slice()` and raises
`KeyError("Query returned no result.")` for a non-slice Table; a non-empty
result is returned without consulting `__is_slice` (Python `and`
short-circuits). -/
def Table.strResult (fuel : Nat) (t : Table) (serverResult : String) :
    Except PyErr String :=
  if serverResult = "" then do
    let b ← t.isSlice fuel
    if b then pure serverResult
    else Except.error (PyErr.keyError "Query returned no result.")
  else
    Except.ok serverResult

/-! ## Section 4: claim theorems -/

/-- Folding a run of `yieldItem` events leaves the counter component fixed
and records the current counter value once per item. -/
theorem foldlYieldsConst (g : Int × List Int → LockEv → Int × List Int)
    (hg : ∀ c acc k, g (c, acc) (LockEv.yieldItem k) = (c, acc ++ [c]))
    (n : Nat) (c : Int) (acc : List Int) :
    ((List.range n).map LockEv.yieldItem).foldl g (c, acc) = (c, acc ++ List.replicate n c) := by
  induction n generalizing acc with
  | zero => simp
  | succ n ih =>
    rw [List.range_succ, List.map_append, List.foldl_append, ih]
    simp [hg, List.replicate_succ']

/-- C1.  The claim states that the lock state established by `locked_ro` /
`locked_rw` around an iterator-producing operation persists for the whole
stream.  In the code it does not: because a generator function object has no
`__next__` attribute, both decorators take their plain (non-generator)
branch, so the reader-count increment of a read section is already undone —
and the write mutex of a write section already released — when the first
item is yielded: at every yield the reader count and the write-hold depth
are 0, not positive. -/
theorem c1_lock_released_before_stream (n : Nat) :
    readerCountsAtYields (lockedRoGenTrace n) = List.replicate n 0 ∧
    writeHeldAtYields (lockedRwGenTrace n) = List.replicate n 0 := by
  constructor
  · unfold readerCountsAtYields lockedRoGenTrace generatorFunctionHasNextAttr
    simp only [if_false, Bool.false_eq_true, List.foldl_append, List.foldl_cons, List.foldl_nil]
    rw [foldlYieldsConst _ (fun _ _ _ => rfl)]
    norm_num
  · unfold writeHeldAtYields lockedRwGenTrace generatorFunctionHasNextAttr
    simp only [if_false, Bool.false_eq_true, List.foldl_append, List.foldl_cons, List.foldl_nil]
    rw [foldlYieldsConst _ (fun _ _ _ => rfl)]
    norm_num

/-- In `MultiLock.wait` / `wait_for`, as long as every inner condition wait
fails, the loop never exits: `cur_time` is only ever re-assigned
`start_time`, so the elapsed time compared against the timeout stays 0. -/
theorem multiLockWaitGo_never_times_out (tm start : ℚ) (htm : 0 < tm) :
    ∀ rounds : List Bool, (∀ r ∈ rounds, r = false) →
      multiLockWaitGo (some tm) start start rounds = none := by
  intro rounds
  induction rounds with
  | nil =>
    intro _
    simp [multiLockWaitGo, sub_self, htm]
  | cons r rs ih =>
    intro h
    have hr : r = false := h r (by simp)
    subst hr
    simp only [multiLockWaitGo, sub_self, htm, decide_eq_true_eq, if_pos, Bool.false_eq_true,
      if_false]
    exact ih (fun x hx => h x (by simp [hx]))

/-- C4.  The claim states that `MultiLock.wait` and `MultiLock.wait_for`
with a numeric timeout return False once the timeout has elapsed against
wall time.  In the code the loop re-assigns `cur_time = start_time` instead
of reading the clock, so for any positive timeout the elapsed time stays 0
and the timeout exit is unreachable: if no underlying wait ever succeeds,
the call never returns at all (modeled as `none` for every finite number of
rounds). -/
theorem c4_wait_timeout_unreachable (tm start : ℚ) (rounds : List Bool)
    (htm : 0 < tm) (hall : ∀ r ∈ rounds, r = false) :
    multiLockWait (some tm) start rounds = none ∧
    multiLockWaitFor (some tm) start rounds = none :=
  ⟨multiLockWaitGo_never_times_out tm start htm rounds hall,
   multiLockWaitGo_never_times_out tm start htm rounds hall⟩

/-- Witness for C4 at a concrete positive timeout and three failed rounds. -/
theorem c4_wait_timeout_unreachable_witness :
    (0 : ℚ) < 1 ∧ multiLockWait (some 1) 0 [false, false, false] = none :=
  ⟨by norm_num,
   (c4_wait_timeout_unreachable 1 0 [false, false, false] (by norm_num) (by decide)).1⟩

/-- Adding a constant to every entry adds `length * c` to the sum. -/
theorem sum_map_add_const (m : List Int) (c : Int) :
    (m.map (fun x => x + c)).sum = m.sum + m.length * c := by
  induction m with
  | nil => simp
  | cons a m ih =>
    simp only [List.map_cons, List.sum_cons, ih, List.length_cons]
    push_cast
    ring

/-- C9.  `MultiInt.value` reads as the sum of the underlying counters;
assignment succeeds exactly when there is at least one underlying counter
and the delta `v - sum` is divisible by their number, in which case every
underlying counter grows by the quotient and the new composite value is
`v`. -/
theorem c9_multiint_sum_invariant (m : List Int) (v : Int) :
    multiIntValue m = m.sum ∧
    ((multiIntSetValue m v).isOk ↔ m ≠ [] ∧ (m.length : Int) ∣ (v - m.sum)) ∧
    (∀ m', multiIntSetValue m v = Except.ok m' →
      m' = m.map (fun x => x + (v - m.sum).fdiv (m.length : Int)) ∧
      multiIntValue m' = v) := by
  have hlen : (0 : Int) ≤ (m.length : Int) := Int.ofNat_nonneg _
  have hmodiff : ((v - m.sum).fmod (m.length : Int) = 0) ↔ (m.length : Int) ∣ (v - m.sum) := by
    rw [Int.fmod_eq_emod _ hlen]
    exact ⟨Int.dvd_of_emod_eq_zero, Int.emod_eq_zero_of_dvd⟩
  refine ⟨rfl, ?_, ?_⟩
  · unfold multiIntSetValue
    by_cases h0 : m.length = 0
    · simp [h0, List.length_eq_zero.mp h0, Except.isOk, Except.toBool]
    · by_cases hd : (m.length : Int) ∣ (v - m.sum)
      · have hne : m ≠ [] := fun hm => h0 (by simp [hm])
        simp [h0, hmodiff.mpr hd, Except.isOk, Except.toBool, hne, hd]
      · have : (v - m.sum).fmod (m.length : Int) ≠ 0 := fun hc => hd (hmodiff.mp hc)
        simp [h0, this, Except.isOk, Except.toBool, hd]
  · intro m' hm'
    unfold multiIntSetValue at hm'
    split at hm'
    · exact absurd hm' (by simp)
    · split at hm'
      · exact absurd hm' (by simp)
      · rename_i h0 hmod
        have hd : (m.length : Int) ∣ (v - m.sum) := hmodiff.mp (by simpa using hmod)
        have hm'' : m' = m.map (fun x => x + (v - m.sum).fdiv (m.length : Int)) :=
          (Except.ok.inj hm').symm
        refine ⟨hm'', ?_⟩
        rw [hm'']
        unfold multiIntValue
        rw [sum_map_add_const, Int.fdiv_eq_ediv _ hlen, Int.mul_ediv_cancel' hd]
        ring

/-- Witness for C9: two counters holding 1 and 2 set to 9 become 4 and 5. -/
theorem c9_multiint_sum_invariant_witness :
    multiIntSetValue [1, 2] 9 = Except.ok [4, 5] ∧ multiIntValue [4, 5] = 9 :=
  ⟨rfl, ((c9_multiint_sum_invariant [1, 2] 9).2.2 [4, 5] rfl).2⟩

/-- C10.  When the server rejects the GET or DELETE command,
`Database.__getitem__` and `Database.__delitem__` do not raise
`KeyError(path)`: the `except BaseXCommandError:` clause names an identifier
that is neither among the module globals of src/database.py (only
`BaseXQueryError` is imported from basex) nor a builtin, so a NameError for
`BaseXCommandError` propagates instead; successful commands are returned
unchanged. -/
theorem c10_missing_import_nameerror (path einfo result : String) :
    databaseGetItem path (Except.error einfo) = DbItemOutcome.nameErr "BaseXCommandError" ∧
    databaseDelItem path (Except.error einfo) = DbItemOutcome.nameErr "BaseXCommandError" ∧
    databaseGetItem path (Except.ok result) = DbItemOutcome.ok result := by
  have hres : databaseModuleResolves "BaseXCommandError" = false := by decide
  exact ⟨by simp [databaseGetItem, hres], by simp [databaseDelItem, hres], rfl⟩

/-- C7.  During login, after receiving a zero-terminated `realm:nonce`
string (one that `split(":")` cuts into exactly the two parts), the client
sends the user name and then
`md5_hex(md5_hex(user + ":" + realm + ":" + password) + nonce)`, each as a
zero-terminated UTF-8 string; a status byte of 0 completes login, 1 raises
the authentication error, anything else the protocol error. -/
theorem c7_login_handshake (md5f : String → String)
    (user password realmNonce realm nonce : String) (status : Nat)
    (h : pySplitColon realmNonce = [realm, nonce]) :
    sessionLogin md5f user password realmNonce status true =
      (sendStrBytes user
         ++ sendStrBytes (md5f (md5f (user ++ ":" ++ realm ++ ":" ++ password) ++ nonce)),
       if status = 0 then Except.ok ()
       else if status = 1 then Except.error LoginErr.authError
       else Except.error LoginErr.protocolError) := by
  unfold sessionLogin
  rw [h]
  simp only [loginDigest, Bool.not_true, Bool.false_eq_true, if_false]
  by_cases h0 : status = 0 <;> by_cases h1 : status = 1 <;> simp [h0, h1]

/-- Witness for C7: a concrete handshake with the identity in place of the
md5 hex digest. -/
theorem c7_login_handshake_witness :
    pySplitColon "realm:nonce" = ["realm", "nonce"] ∧
    sessionLogin (fun s => s) "u" "p" "realm:nonce" 0 true =
      (sendStrBytes "u"
         ++ sendStrBytes ((fun s : String => s)
              ((fun s : String => s) ("u" ++ ":" ++ "realm" ++ ":" ++ "p") ++ "nonce")),
       if 0 = 0 then Except.ok ()
       else if 0 = 1 then Except.error LoginErr.authError
       else Except.error LoginErr.protocolError) :=
  ⟨by decide,
   c7_login_handshake (fun s => s) "u" "p" "realm:nonce" "realm" "nonce" 0 (by decide)⟩

/-- A list with a last element is non-empty. -/
theorem length_pos_of_getLast_eq_some {α : Type} {l : List α} {a : α}
    (h : l.getLast? = some a) : 0 < l.length := by
  cases l with
  | nil => simp at h
  | cons x xs => simp

/-- Inversion of a successful `Except.bind`. -/
theorem exceptBind_ok {ε α β : Type} {x : Except ε α} {f : α → Except ε β} {b : β}
    (h : x.bind f = Except.ok b) : ∃ a, x = Except.ok a ∧ f a = Except.ok b := by
  cases x with
  | error e => exact absurd h (by simp [Except.bind])
  | ok a => exact ⟨a, rfl, h⟩

/-- `extend-path` preserves the selector chain and never shortens the
expression chain. -/
theorem truediv_shape (t : Table) (sg : String) :
    (t.truediv sg).selectorChain = t.selectorChain ∧
    t.expressionChain.length ≤ (t.truediv sg).expressionChain.length := by
  obtain ⟨db, doc, ec, sc, bv, ns, pfx⟩ := t
  refine ⟨rfl, ?_⟩
  simp only [Table.truediv, Table.expressionChain, Table.selectorChain]
  cases hl : ec.getLast? with
  | none => simp
  | some last =>
    have hpos := length_pos_of_getLast_eq_some hl
    cases hk : last.keys <;>
      (simp [hk, List.length_append, List.length_dropLast, List.length_cons,
        List.length_nil]
       try omega)

/-- A successful `attach-keys` preserves the selector chain and the length
of the expression chain. -/
theorem matmul_ok_shape {t : Table} {ks : List (Option String)} {t' : Table}
    (h : t.matmul ks = Except.ok t') :
    t'.selectorChain = t.selectorChain ∧
    t'.expressionChain.length = t.expressionChain.length := by
  obtain ⟨db, doc, ec, sc, bv, ns, pfx⟩ := t
  simp only [Table.matmul, Table.expressionChain, Table.selectorChain] at h ⊢
  cases hl : ec.getLast? with
  | none => rw [hl] at h; simp at h
  | some last =>
    rw [hl] at h
    dsimp only at h
    cases hk : last.keys with
    | some ks1 => rw [hk] at h; simp at h
    | none =>
      rw [hk] at h
      simp only [Except.ok.injEq] at h
      subst h
      have hpos := length_pos_of_getLast_eq_some hl
      refine ⟨rfl, ?_⟩
      simp only [Table.selectorChain, Table.expressionChain, List.length_append,
        List.length_dropLast, List.length_cons, List.length_nil]
      omega

/-- A successful `attach-filter` preserves the selector chain and the length
of the expression chain. -/
theorem mod_ok_shape {t : Table} {f : String} {t' : Table}
    (h : t.mod f = Except.ok t') :
    t'.selectorChain = t.selectorChain ∧
    t'.expressionChain.length = t.expressionChain.length := by
  obtain ⟨db, doc, ec, sc, bv, ns, pfx⟩ := t
  simp only [Table.mod, Table.expressionChain, Table.selectorChain] at h ⊢
  cases hl : ec.getLast? with
  | none => rw [hl] at h; simp at h
  | some last =>
    rw [hl] at h
    dsimp only at h
    have hpos := length_pos_of_getLast_eq_some hl
    cases hk : last.keys with
    | some ks1 => rw [hk] at h; simp at h
    | none =>
      rw [hk] at h
      dsimp only at h
      cases hf : last.filters with
      | none =>
        rw [hf] at h
        simp only [Except.ok.injEq] at h
        subst h
        refine ⟨rfl, ?_⟩
        simp only [Table.selectorChain, Table.expressionChain, List.length_append,
          List.length_dropLast, List.length_cons, List.length_nil]
        omega
      | some fs =>
        rw [hf] at h
        simp only [Except.ok.injEq] at h
        subst h
        refine ⟨rfl, ?_⟩
        simp only [Table.selectorChain, Table.expressionChain, List.length_append,
          List.length_dropLast, List.length_cons, List.length_nil]
        omega

/-- `bind-vars` leaves both chains unchanged. -/
theorem floordiv_shape (t : Table) (vs : List (String × PyVal)) :
    (t.floordiv vs).selectorChain = t.selectorChain ∧
    (t.floordiv vs).expressionChain = t.expressionChain :=
  ⟨rfl, rfl⟩

/-- A successful `cartesian` produces an empty selector chain over a
single-step expression chain. -/
theorem mul_ok_shape {t u t' : Table} (h : t.mul u = Except.ok t') :
    t'.selectorChain = [] ∧ t'.expressionChain.length = 1 := by
  unfold Table.mul at h
  split at h
  · exact absurd h (by simp)
  · obtain ⟨parts, hparts, hres⟩ := exceptBind_ok h
    split at hres
    · exact absurd hres (by simp)
    · simp only [Except.ok.injEq] at hres
      subst hres
      exact ⟨rfl, rfl⟩

/-- A successful `specialize` requires `len(selector-chain) ≤
len(expression-chain)`, keeps the expression chain, and appends exactly one
selector. -/
theorem getitem_ok_shape {t : Table} {kv : SubscriptArg} {t' : Table}
    (h : t.getitem kv = Except.ok t') :
    t.selectorChain.length ≤ t.expressionChain.length ∧
    t'.expressionChain = t.expressionChain ∧
    t'.selectorChain.length = t.selectorChain.length + 1 := by
  obtain ⟨db, doc, ec, sc, bv, ns, pfx⟩ := t
  simp only [Table.getitem, Table.expressionChain, Table.selectorChain] at h ⊢
  split at h
  · exact absurd h (by simp)
  · rename_i hgt
    simp only [Except.ok.injEq] at h
    subst h
    refine ⟨by omega, rfl, ?_⟩
    simp [Table.selectorChain, Table.expressionChain]

/-- Every Table reachable by operator application satisfies
`len(selector-chain) ≤ len(expression-chain) + 1`. -/
theorem reachable_sel_le_expr_succ {t : Table} (h : Reachable t) :
    t.selectorChain.length ≤ t.expressionChain.length + 1 := by
  induction h with
  | doc db dn ns pfx => simp [databaseDoc, Table.selectorChain, Table.expressionChain]
  | truediv t sg ht ih =>
    obtain ⟨hsc, hle⟩ := truediv_shape t sg
    rw [hsc]
    omega
  | matmul t ks t' ht hok ih =>
    obtain ⟨hsc, hlen⟩ := matmul_ok_shape hok
    rw [hsc, hlen]
    exact ih
  | floordiv t vs ht ih =>
    obtain ⟨hsc, hec⟩ := floordiv_shape t vs
    rw [hsc, hec]
    exact ih
  | mod t f t' ht hok ih =>
    obtain ⟨hsc, hlen⟩ := mod_ok_shape hok
    rw [hsc, hlen]
    exact ih
  | mul t u t' ht hu hok iht ihu =>
    obtain ⟨hsc, hlen⟩ := mul_ok_shape hok
    rw [hsc, hlen]
    simp
  | getitem t kv t' ht hok ih =>
    obtain ⟨hle, hec, hsc⟩ := getitem_ok_shape hok
    rw [hsc, hec]
    omega

/-- C2 counterexample: the claim states that `specialize` never produces a
Table whose selector chain is longer than its expression chain, but already
`doc(...)[...]` — a plain operator application — succeeds and yields a Table
with one selector over an empty expression chain.  (`__len__` and
`__contains__` rely on exactly this extra `[...]` selector.) -/
theorem c2_counterexample :
    (databaseDoc "db" "one.xml" [] []).getitem SubscriptArg.ell =
      Except.ok (Table.mk "db" (PyDoc.single "one.xml") [] [Selector.ellipsis] [] [] []) ∧
    (Table.mk "db" (PyDoc.single "one.xml") [] [Selector.ellipsis] [] [] []).selectorChain.length >
      (Table.mk "db" (PyDoc.single "one.xml") [] [Selector.ellipsis] [] [] []).expressionChain.length :=
  ⟨rfl, by simp [Table.selectorChain, Table.expressionChain]⟩

/-- C2 amended: every Table reachable by operator application satisfies
`len(selector-chain) ≤ len(expression-chain) + 1`; `specialize` appends
exactly one selector, succeeding exactly while
`len(selector-chain) ≤ len(expression-chain)` and raising TypeError
("End of chain reached") on the one Table shape beyond that. -/
theorem c2_specialize_bound (t : Table) (kv : SubscriptArg) (h : Reachable t) :
    t.selectorChain.length ≤ t.expressionChain.length + 1 ∧
    ((∃ t', t.getitem kv = Except.ok t') ↔
      t.selectorChain.length ≤ t.expressionChain.length) ∧
    (∀ t', t.getitem kv = Except.ok t' →
      t'.expressionChain = t.expressionChain ∧
      t'.selectorChain.length = t.selectorChain.length + 1) := by
  refine ⟨reachable_sel_le_expr_succ h, ⟨?_, ?_⟩, ?_⟩
  · rintro ⟨t', ht'⟩
    exact (getitem_ok_shape ht').1
  · intro hle
    unfold Table.getitem
    rw [if_neg (by omega)]
    exact ⟨_, rfl⟩
  · intro t' ht'
    exact ⟨(getitem_ok_shape ht').2.1, (getitem_ok_shape ht').2.2⟩

/-- Witness for C2 at the base Table produced by `Database.doc`. -/
theorem c2_specialize_bound_witness :
    (databaseDoc "db" "d" [] []).selectorChain.length
      ≤ (databaseDoc "db" "d" [] []).expressionChain.length + 1 :=
  (c2_specialize_bound (databaseDoc "db" "d" [] []) SubscriptArg.ell
    (Reachable.doc "db" "d" [] [])).1

/-- The Table `doc / "a" % "f"`: its single step carries only a filter
list (no keys). -/
def tFilterOnly : Table :=
  Table.mk "db" (PyDoc.single "d") [Step.mk [PathPart.seg "a"] none (some ["f"])] [] [] [] []

/-- C3 counterexample: on a last step carrying only a filter list the claim
says `/` leaves the step intact and opens a new step; the code instead
appends the segment to that step and rebuilds it with an empty filter list
(the condition at src/database.py line 176 tests only the keys). -/
theorem c3_counterexample :
    ((databaseDoc "db" "d" [] []).truediv "a").mod "f" = Except.ok tFilterOnly ∧
    (tFilterOnly.truediv "b").expressionChain =
      [Step.mk [PathPart.seg "a", PathPart.seg "b"] none none] ∧
    (tFilterOnly.truediv "b").expressionChain ≠
      [Step.mk [PathPart.seg "a"] none (some ["f"]), Step.mk [PathPart.seg "b"] none none] :=
  ⟨rfl, rfl, fun hcontra => absurd (congrArg List.length hcontra) (by decide)⟩

/-- C3 amended: `extend-path` opens a new step exactly when the chain is
empty or the last step has a keys-spec; when the last step has no keys the
segment is appended to it and the step is rebuilt with `None` keys and
`None` filters — a filter list carried by that step is discarded, not
preserved in a separate step. -/
theorem c3_extend_path (t : Table) (sg : String) :
    (t.truediv sg).selectorChain = t.selectorChain ∧
    (t.expressionChain.getLast? = none →
      (t.truediv sg).expressionChain =
        t.expressionChain ++ [Step.mk [PathPart.seg sg] none none]) ∧
    (∀ last, t.expressionChain.getLast? = some last → last.keys ≠ none →
      (t.truediv sg).expressionChain =
        t.expressionChain ++ [Step.mk [PathPart.seg sg] none none]) ∧
    (∀ last, t.expressionChain.getLast? = some last → last.keys = none →
      (t.truediv sg).expressionChain =
        t.expressionChain.dropLast
          ++ [Step.mk (last.pathParts ++ [PathPart.seg sg]) none none]) := by
  obtain ⟨db, doc, ec, sc, bv, ns, pfx⟩ := t
  refine ⟨(truediv_shape _ sg).1, ?_, ?_, ?_⟩
  · intro hl
    simp only [Table.expressionChain] at hl ⊢
    simp [Table.truediv, Table.expressionChain, hl]
  · intro last hl hk
    simp only [Table.expressionChain] at hl ⊢
    cases hks : last.keys with
    | none => exact absurd hks hk
    | some ks => simp [Table.truediv, Table.expressionChain, hl, hks]
  · intro last hl hk
    simp only [Table.expressionChain] at hl ⊢
    simp [Table.truediv, Table.expressionChain, hl, hk]

/-- Witness for C3 at the filter-only step: the segment is appended and the
filter list is dropped. -/
theorem c3_extend_path_witness :
    (tFilterOnly.truediv "b").expressionChain =
      tFilterOnly.expressionChain.dropLast
        ++ [Step.mk ((Step.mk [PathPart.seg "a"] none (some ["f"])).pathParts
              ++ [PathPart.seg "b"]) none none] :=
  (c3_extend_path tFilterOnly "b").2.2.2
    (Step.mk [PathPart.seg "a"] none (some ["f"])) rfl rfl

/-- The Table `doc / "a" @ ["k"]`: its single step has a keys-spec. -/
def tKeyed : Table :=
  Table.mk "db" (PyDoc.single "d") [Step.mk [PathPart.seg "a"] (some [some "k"]) none] [] [] [] []

/-- C6 counterexample: the claim says `%` raises exactly when the chain is
empty, but on a non-empty chain whose last step already has a keys-spec the
code raises ValueError as well (src/database.py line 201 tests
`expr_chain[-1][1] != None`). -/
theorem c6_counterexample :
    ((databaseDoc "db" "d" [] []).truediv "a").matmul [some "k"] = Except.ok tKeyed ∧
    tKeyed.expressionChain ≠ [] ∧
    tKeyed.mod "f" = Except.error (PyErr.valueError "Provide path element first.") :=
  ⟨rfl, by simp [tKeyed, Table.expressionChain], rfl⟩

/-- C6 amended: `attach-filter` raises exactly when the chain is empty or
the last step already has a keys-spec; otherwise it appends the predicate to
the last step's filter list (creating the list if absent). -/
theorem c6_attach_filter (t : Table) (f : String) :
    ((∃ e, t.mod f = Except.error e) ↔
      (t.expressionChain = [] ∨
        ∃ last, t.expressionChain.getLast? = some last ∧ last.keys ≠ none)) ∧
    (∀ last, t.expressionChain.getLast? = some last → last.keys = none →
      t.mod f = Except.ok (Table.mk t.databaseName t.document
        (t.expressionChain.dropLast
          ++ [Step.mk last.pathParts last.keys (some (last.filters.getD [] ++ [f]))])
        t.selectorChain t.boundVars t.xmlns t.xmlPfx)) := by
  constructor
  · constructor
    · rintro ⟨e, he⟩
      unfold Table.mod at he
      dsimp only at he
      cases hl : t.expressionChain.getLast? with
      | none => exact Or.inl (List.getLast?_eq_none_iff.mp hl)
      | some last =>
        rw [hl] at he
        dsimp only at he
        cases hk : last.keys with
        | some ks => exact Or.inr ⟨last, rfl, by simp [hk]⟩
        | none =>
          rw [hk] at he
          dsimp only at he
          cases hf : last.filters with
          | none => rw [hf] at he; simp at he
          | some fs => rw [hf] at he; simp at he
    · intro hcase
      refine ⟨PyErr.valueError "Provide path element first.", ?_⟩
      unfold Table.mod
      dsimp only
      rcases hcase with hnil | ⟨last, hl, hk⟩
      · rw [List.getLast?_eq_none_iff.mpr hnil]
      · rw [hl]
        dsimp only
        cases hks : last.keys with
        | none => exact absurd hks hk
        | some ks => rfl
  · intro last hl hk
    unfold Table.mod
    dsimp only
    rw [hl]
    dsimp only
    rw [hk]
    dsimp only
    cases hf : last.filters with
    | none => simp
    | some fs => simp

/-- Witness for C6: attaching a filter to a keyless step succeeds and starts
the filter list. -/
theorem c6_attach_filter_witness :
    ((databaseDoc "db" "d" [] []).truediv "a").mod "f" =
      Except.ok (Table.mk "db" (PyDoc.single "d")
        [Step.mk [PathPart.seg "a"] none (some ["f"])] [] [] [] []) := by
  have h := (c6_attach_filter ((databaseDoc "db" "d" [] []).truediv "a") "f").2
    (Step.mk [PathPart.seg "a"] none none) rfl rfl
  exact h

/-- The first Table of the C5 counterexample. -/
def tDocOne : Table := Table.mk "db" (PyDoc.single "one.xml") [] [] [] [] []

/-- The second Table of the C5 counterexample: identical expression chain,
selector chain, xmlns and bound variables, but a different document. -/
def tDocTwo : Table := Table.mk "db" (PyDoc.single "two.xml") [] [] [] [] []

/-- C5 counterexample: two Tables that agree on expression chain, selector
chain, xmlns and bound-variable names but read different documents compile
to different query strings — the compiled string also depends on the
document (and on the database name), which the claim omits. -/
theorem c5_counterexample :
    tDocOne.expressionChain = tDocTwo.expressionChain ∧
    tDocOne.selectorChain = tDocTwo.selectorChain ∧
    tDocOne.xmlns = tDocTwo.xmlns ∧
    tDocOne.boundVars.map Prod.fst = tDocTwo.boundVars.map Prod.fst ∧
    tDocOne.queryString 5 Mode.get = Except.ok "doc(\"db/one.xml\")" ∧
    tDocTwo.queryString 5 Mode.get = Except.ok "doc(\"db/two.xml\")" ∧
    tDocOne.queryString 5 Mode.get ≠ tDocTwo.queryString 5 Mode.get := by
  refine ⟨rfl, rfl, rfl, rfl, rfl, rfl, ?_⟩
  intro hcontra
  rw [show tDocOne.queryString 5 Mode.get = Except.ok "doc(\"db/one.xml\")" from rfl,
      show tDocTwo.queryString 5 Mode.get = Except.ok "doc(\"db/two.xml\")" from rfl] at hcontra
  exact absurd (Except.ok.inj hcontra) (by decide)

/-- C5 amended: for every fuel and mode, the compiled query string is a
function of the database name, the document, the expression chain, the
selector chain, the xmlns bindings and the bound-variable names alone — in
particular it does not depend on the bound-variable values (nor on
xml_pfx). -/
theorem c5_query_determinism (fuel : Nat) (db : String) (document : PyDoc)
    (ec : List Step) (sc : List Selector) (ns pfx1 pfx2 : List (String × String))
    (bv1 bv2 : List (String × PyVal)) (mode : Mode)
    (h : bv1.map Prod.fst = bv2.map Prod.fst) :
    Table.queryString fuel (Table.mk db document ec sc bv1 ns pfx1) mode =
    Table.queryString fuel (Table.mk db document ec sc bv2 ns pfx2) mode := by
  unfold Table.queryString
  simp only [Table.databaseName, Table.document, Table.expressionChain, Table.selectorChain,
    Table.boundVars, Table.xmlns, Table.xmlPfx, h]

/-- Witness for C5: same bound-variable name bound to different values
yields the same query string. -/
theorem c5_query_determinism_witness :
    ([("x", PyVal.vInt 1)] : List (String × PyVal)).map Prod.fst =
      ([("x", PyVal.vStr "y")] : List (String × PyVal)).map Prod.fst ∧
    Table.queryString 5
        (Table.mk "db" (PyDoc.single "d") [] [] [("x", PyVal.vInt 1)] [] []) Mode.get =
      Table.queryString 5
        (Table.mk "db" (PyDoc.single "d") [] [] [("x", PyVal.vStr "y")] [] []) Mode.get :=
  ⟨rfl,
   c5_query_determinism 5 "db" (PyDoc.single "d") [] [] [] [] []
     [("x", PyVal.vInt 1)] [("x", PyVal.vStr "y")] Mode.get rfl⟩

/-- When the second list is no longer than the first, scanning the zipped
pairs by their second component is scanning the second list. -/
theorem zip_any_snd {α β : Type} (p : β → Bool) :
    ∀ (ks : List α) (vs : List β), vs.length ≤ ks.length →
      (ks.zip vs).any (fun kv => p kv.2) = vs.any p := by
  intro ks
  induction ks with
  | nil =>
    intro vs h
    have hvs : vs = [] := by
      cases vs with
      | nil => rfl
      | cons v vs => simp at h
    subst hvs
    simp
  | cons k ks ih =>
    intro vs h
    cases vs with
    | nil => simp
    | cons v vs =>
      simp only [List.zip_cons_cons, List.any_cons]
      rw [ih vs (by simpa using h)]

/-- Under the cardinality conditions of `wfChains`, the zipped-chain loop of
`__is_slice` computes whether some selector is `Ellipsis` or contains a
range. -/
theorem isSlicePairs_eval :
    ∀ (ec : List Step) (sc : List Selector),
      sc.length ≤ ec.length →
      (ec.zip sc).all (fun pair =>
        match pair.2 with
        | Selector.ellipsis => true
        | Selector.vals vs =>
          match pair.1.keys with
          | none => false
          | some ks => decide (vs.length ≤ ks.length)) = true →
      isSlicePairs (ec.zip sc) = Except.ok (sc.any selHasSlice) := by
  intro ec
  induction ec with
  | nil =>
    intro sc hlen hall
    have hsc : sc = [] := by
      cases sc with
      | nil => rfl
      | cons sel sc => simp at hlen
    subst hsc
    simp [isSlicePairs]
  | cons st ec ih =>
    intro sc hlen hall
    cases sc with
    | nil => simp [isSlicePairs, selHasSlice]
    | cons sel sc =>
      simp only [List.zip_cons_cons, List.all_cons, Bool.and_eq_true] at hall
      obtain ⟨hhead, htail⟩ := hall
      cases sel with
      | ellipsis => simp [isSlicePairs, selHasSlice]
      | vals vs =>
        cases hk : st.keys with
        | none => rw [hk] at hhead; simp at hhead
        | some ks =>
          rw [hk] at hhead
          have hvk : vs.length ≤ ks.length := by simpa using hhead
          have hz := zip_any_snd
            (fun v => match v with | KeyVal.slice _ _ => true | KeyVal.scalar _ => false)
            ks vs hvk
          rw [List.zip_cons_cons]
          rw [show isSlicePairs ((st, Selector.vals vs) :: ec.zip sc) =
              (match st.keys with
               | none => Except.error PyErr.typeError
               | some ks1 =>
                 if (ks1.zip vs).any (fun kv =>
                     match kv.2 with
                     | KeyVal.slice _ _ => true
                     | KeyVal.scalar _ => false) then Except.ok true
                 else isSlicePairs (ec.zip sc)) from rfl,
            hk]
          dsimp only
          rw [hz]
          cases hany : vs.any
              (fun v => match v with | KeyVal.slice _ _ => true | KeyVal.scalar _ => false) with
          | true => simp [selHasSlice, hany]
          | false =>
            rw [ih sc (by simpa using hlen) htail]
            simp [selHasSlice, hany]

/-- Under well-formed chains, the code's `__is_slice` agrees with the spec
wording of slice-shapedness (any selector is `Ellipsis` or contains a range,
the selectors of product sub-Tables included). -/
theorem slice_spec_agrees :
    ∀ fuel : Nat,
      (∀ ec sc b, wfChains fuel ec sc = true → isSliceCore fuel ec sc = Except.ok b →
        sliceSpecCore fuel ec sc = some b) ∧
      (∀ subs b, wfSubs fuel subs = true → isSliceSubs fuel subs = Except.ok b →
        sliceSpecSubs fuel subs = some b) := by
  intro fuel
  induction fuel with
  | zero =>
    constructor
    · intro ec sc b hwf _
      simp [wfChains] at hwf
    · intro subs b hwf _
      simp [wfSubs] at hwf
  | succ fuel ih =>
    obtain ⟨ihc, ihs⟩ := ih
    constructor
    · intro ec sc b hwf hcode
      simp only [wfChains, Bool.and_eq_true] at hwf
      obtain ⟨⟨hlen, hall⟩, hsub⟩ := hwf
      have hpairs := isSlicePairs_eval ec sc (by simpa using hlen) hall
      have hunfold : isSliceCore (fuel + 1) ec sc
          = (isSlicePairs (ec.zip sc)).bind (fun own =>
              if own then pure true
              else
                match ec.head? with
                | some st0 =>
                  if allSubs st0.pathParts then isSliceSubs fuel (subsOf st0.pathParts)
                  else pure false
                | none => pure false) := rfl
      cases hany : sc.any selHasSlice with
      | true =>
        rw [hany] at hpairs
        have hval : isSliceCore (fuel + 1) ec sc = Except.ok true := by
          rw [hunfold, hpairs]
          rfl
        rw [hval] at hcode
        have hb := Except.ok.inj hcode
        simp [sliceSpecCore, hany, ← hb]
      | false =>
        rw [hany] at hpairs
        cases hh : ec.head? with
        | none =>
          have hval : isSliceCore (fuel + 1) ec sc = Except.ok false := by
            rw [hunfold, hpairs, hh]
            rfl
          rw [hval] at hcode
          have hb := Except.ok.inj hcode
          simp [sliceSpecCore, hany, hh, ← hb]
        | some st0 =>
          cases hsubs : allSubs st0.pathParts with
          | true =>
            have hval : isSliceCore (fuel + 1) ec sc
                = isSliceSubs fuel (subsOf st0.pathParts) := by
              rw [hunfold, hpairs, hh]
              dsimp only
              rw [hsubs]
              rfl
            rw [hval] at hcode
            rw [hh] at hsub
            simp only [hsubs, Bool.not_true, Bool.false_or] at hsub
            have hspec := ihs (subsOf st0.pathParts) b hsub hcode
            simp [sliceSpecCore, hany, hh, hsubs, hspec]
          | false =>
            have hval : isSliceCore (fuel + 1) ec sc = Except.ok false := by
              rw [hunfold, hpairs, hh]
              dsimp only
              rw [hsubs]
              rfl
            rw [hval] at hcode
            have hb := Except.ok.inj hcode
            simp [sliceSpecCore, hany, hh, hsubs, ← hb]
    · intro subs b hwf hcode
      cases subs with
      | nil =>
        have hval : isSliceSubs (fuel + 1) ([] : List Table) = Except.ok false := rfl
        rw [hval] at hcode
        have hb := Except.ok.inj hcode
        simp [sliceSpecSubs, ← hb]
      | cons u rest =>
        simp only [wfSubs, Bool.and_eq_true] at hwf
        obtain ⟨hwfu, hwfrest⟩ := hwf
        have hcode' : (isSliceCore fuel u.expressionChain u.selectorChain).bind
            (fun b1 => if b1 then Except.ok true else isSliceSubs fuel rest)
            = Except.ok b := by
          rw [← hcode]
          rfl
        obtain ⟨b1, hb1, hrest⟩ := exceptBind_ok hcode'
        have hu := ihc u.expressionChain u.selectorChain b1 hwfu hb1
        cases b1 with
        | true =>
          simp only [if_pos] at hrest
          have hb := Except.ok.inj hrest
          subst hb
          simp [sliceSpecSubs, hu]
        | false =>
          simp only [Bool.false_eq_true, if_false] at hrest
          have hspec := ihs rest b hwfrest hrest
          simp [sliceSpecSubs, hu, hspec]

/-- C8.  Single-valued materialization (`str(t)`, executing in GET mode)
raises the key-missing error exactly when the server result is empty and the
Table is not slice-shaped; a slice-shaped Table over an empty result yields
the empty result with no error; a non-empty result is returned unchanged
(without even consulting `__is_slice`); and under well-formed chains the
code's `__is_slice` computes exactly the claim's parenthetical definition of
slice-shapedness — some selector is `Ellipsis` or contains a range, the
selectors of product sub-Tables included. -/
theorem c8_str_keyerror_iff (fuel : Nat) (t : Table) (r : String) (b : Bool)
    (hslice : t.isSlice fuel = Except.ok b) :
    (t.strResult fuel r = Except.error (PyErr.keyError "Query returned no result.") ↔
      (r = "" ∧ b = false)) ∧
    (b = true → t.strResult fuel "" = Except.ok "") ∧
    (r ≠ "" → t.strResult fuel r = Except.ok r) ∧
    (wfChains fuel t.expressionChain t.selectorChain = true →
      sliceSpecCore fuel t.expressionChain t.selectorChain = some b) := by
  have hstr : t.strResult fuel "" =
      (if b = true then Except.ok ""
       else Except.error (PyErr.keyError "Query returned no result.")) := by
    unfold Table.strResult
    rw [if_pos rfl, show (do
        let bb ← t.isSlice fuel
        if bb then pure "" else Except.error (PyErr.keyError "Query returned no result.")
        : Except PyErr String)
      = (t.isSlice fuel).bind (fun bb =>
          if bb then Except.ok "" else Except.error (PyErr.keyError "Query returned no result."))
      from rfl, hslice]
    rfl
  have hne : ∀ rr : String, rr ≠ "" → t.strResult fuel rr = Except.ok rr := by
    intro rr hrr
    unfold Table.strResult
    rw [if_neg hrr]
  refine ⟨?_, ?_, hne r, ?_⟩
  · by_cases hr : r = ""
    · subst hr
      rw [hstr]
      cases b with
      | true => simp
      | false => simp
    · rw [hne r hr]
      simp [hr]
  · intro hb
    rw [hstr, hb]
    rfl
  · intro hwf
    exact (slice_spec_agrees fuel).1 t.expressionChain t.selectorChain b hwf hslice

/-- A concrete slice-shaped Table for the C8 witness: one keyed step
specialized with `Ellipsis`. -/
def tSliceShaped : Table :=
  Table.mk "db" (PyDoc.single "d")
    [Step.mk [PathPart.seg "a"] (some [some "k"]) none] [Selector.ellipsis] [] [] []

/-- Witness for C8: the slice-shaped Table yields an empty result with no
error over an empty parent. -/
theorem c8_str_keyerror_iff_witness :
    tSliceShaped.isSlice 5 = Except.ok true ∧
    tSliceShaped.strResult 5 "" = Except.ok "" :=
  ⟨rfl, (c8_str_keyerror_iff 5 tSliceShaped "" true rfl).2.1 rfl⟩

end Baxend
